import Mathlib

/-!
Verification development for the `i.landsat` GRASS addon repository
(`i.landsat.import` and `i.landsat.download`).

The Python sources are shallowly embedded as executable Lean definitions:

* the Python `re` patterns built by `LandsatImporter.filter`
  (`.*<pattern>.*.tif$`, `.*_B.*.tif$`) use only the metacharacters
  `.` (any character except newline), postfix `*`, and a trailing `$`;
  the embedding implements exactly that fragment of `re` syntax via
  Brzozowski derivatives, treating every other character as a literal
  (which is what `re` does for the characters occurring in this module's
  patterns);
* the `glob` patterns (`*<pattern_file>*.tar.gz`, `*`) use only the `*`
  wildcard, embedded through the same regex core;
* filesystem contents (archives in the input directory, extraction
  results, `glob`/`os.walk` observations of the unzip directory) are
  explicit data; GRASS module invocations (`r.external`, `r.in.gdal`,
  `r.import`, `r.mapcalc`, `g.rename`, ...) are recorded as events;
* `gs.fatal` aborts execution, modelled with `Except`/`Option` error
  values that stop further processing.
-/

/-- Abstract syntax of the regular-expression fragment used by the
module's compiled patterns. `any` is `re`'s `.` (any char but newline). -/
inductive RE where
  | void : RE
  | eps : RE
  | char (c : Char) : RE
  | any : RE
  | cat (r₁ r₂ : RE) : RE
  | alt (r₁ r₂ : RE) : RE
  | star (r : RE) : RE
deriving DecidableEq, Repr

/-- Does the regex accept the empty string? -/
def RE.nullable : RE → Bool
  | .void => false
  | .eps => true
  | .char _ => false
  | .any => false
  | .cat r₁ r₂ => r₁.nullable && r₂.nullable
  | .alt r₁ r₂ => r₁.nullable || r₂.nullable
  | .star _ => true

/-- Brzozowski derivative of a regex with respect to one character. -/
def RE.deriv : RE → Char → RE
  | .void, _ => .void
  | .eps, _ => .void
  | .char c, a => if a = c then .eps else .void
  | .any, a => if a = '\n' then .void else .eps
  | .cat r₁ r₂, a =>
      if r₁.nullable then .alt (.cat (r₁.deriv a) r₂) (r₂.deriv a)
      else .cat (r₁.deriv a) r₂
  | .alt r₁ r₂, a => .alt (r₁.deriv a) (r₂.deriv a)
  | .star r, a => .cat (r.deriv a) (.star r)

/-- Executable full-string matcher: repeated derivatives, then
nullability of the residual. -/
def reFull (r : RE) (s : List Char) : Bool :=
  (s.foldl RE.deriv r).nullable

/-- The language denoted by a regex, as an inductive predicate. -/
inductive RLang : RE → List Char → Prop where
  | eps : RLang .eps []
  | char (c : Char) : RLang (.char c) [c]
  | any {c : Char} (h : c ≠ '\n') : RLang .any [c]
  | catI {r₁ r₂ : RE} {s₁ s₂ : List Char} :
      RLang r₁ s₁ → RLang r₂ s₂ → RLang (.cat r₁ r₂) (s₁ ++ s₂)
  | altL {r₁ r₂ : RE} {s : List Char} : RLang r₁ s → RLang (.alt r₁ r₂) s
  | altR {r₁ r₂ : RE} {s : List Char} : RLang r₂ s → RLang (.alt r₁ r₂) s
  | starNil (r : RE) : RLang (.star r) []
  | starCons {r : RE} {s₁ s₂ : List Char} :
      RLang r s₁ → RLang (.star r) s₂ → RLang (.star r) (s₁ ++ s₂)

theorem RLang.void_elim {s : List Char} (h : RLang .void s) : False := by
  cases h

theorem RLang.nullable_of_nil : ∀ {r : RE} {s : List Char},
    RLang r s → s = [] → r.nullable = true := by
  intro r s h
  induction h with
  | eps => intro _; rfl
  | char c => intro h; cases h
  | any _ => intro h; cases h
  | catI h₁ h₂ ih₁ ih₂ =>
      intro h
      rcases List.append_eq_nil.mp h with ⟨e₁, e₂⟩
      simp [RE.nullable, ih₁ e₁, ih₂ e₂]
  | altL h ih =>
      intro he; simp [RE.nullable, ih he]
  | altR h ih =>
      intro he; simp [RE.nullable, ih he]
  | starNil r => intro _; rfl
  | starCons h₁ h₂ ih₁ ih₂ => intro _; rfl

theorem RLang.nil_of_nullable : ∀ {r : RE}, r.nullable = true → RLang r [] := by
  intro r
  induction r with
  | void => intro h; cases h
  | eps => intro _; exact .eps
  | char c => intro h; cases h
  | any => intro h; cases h
  | cat r₁ r₂ ih₁ ih₂ =>
      intro h
      simp only [RE.nullable, Bool.and_eq_true] at h
      have := RLang.catI (ih₁ h.1) (ih₂ h.2)
      simpa using this
  | alt r₁ r₂ ih₁ ih₂ =>
      intro h
      simp only [RE.nullable, Bool.or_eq_true] at h
      rcases h with h₁ | h₂
      · exact .altL (ih₁ h₁)
      · exact .altR (ih₂ h₂)
  | star r ih => intro _; exact .starNil r

theorem RLang.deriv_sound : ∀ {r : RE} {c : Char} {s : List Char},
    RLang (r.deriv c) s → RLang r (c :: s) := by
  intro r
  induction r with
  | void => intro c s h; exact absurd h RLang.void_elim
  | eps => intro c s h; exact absurd h RLang.void_elim
  | char c' =>
      intro c s h
      simp only [RE.deriv] at h
      by_cases hc : c = c'
      · rw [if_pos hc] at h
        cases h
        rw [hc]
        exact .char c'
      · rw [if_neg hc] at h
        exact absurd h RLang.void_elim
  | any =>
      intro c s h
      simp only [RE.deriv] at h
      by_cases hc : c = '\n'
      · rw [if_pos hc] at h
        exact absurd h RLang.void_elim
      · rw [if_neg hc] at h
        cases h
        exact .any hc
  | cat r₁ r₂ ih₁ ih₂ =>
      intro c s h
      simp only [RE.deriv] at h
      by_cases hn : r₁.nullable
      · rw [if_pos hn] at h
        cases h with
        | altL h =>
            cases h with
            | catI h₁ h₂ =>
                have := RLang.catI (ih₁ h₁) h₂
                simpa using this
        | altR h =>
            have := RLang.catI (RLang.nil_of_nullable (by simpa using hn)) (ih₂ h)
            simpa using this
      · rw [if_neg hn] at h
        cases h with
        | catI h₁ h₂ =>
            have := RLang.catI (ih₁ h₁) h₂
            simpa using this
  | alt r₁ r₂ ih₁ ih₂ =>
      intro c s h
      cases h with
      | altL h => exact .altL (ih₁ h)
      | altR h => exact .altR (ih₂ h)
  | star r ih =>
      intro c s h
      cases h with
      | catI h₁ h₂ =>
          have := RLang.starCons (ih h₁) h₂
          simpa using this

theorem RLang.deriv_complete : ∀ {r : RE} {t : List Char}, RLang r t →
    ∀ {c : Char} {s : List Char}, t = c :: s → RLang (r.deriv c) s := by
  intro r t h
  induction h with
  | eps => intro c s he; cases he
  | char c' =>
      intro c s he
      injection he with h1 h2
      subst h1; subst h2
      simp only [RE.deriv, if_pos rfl]
      exact .eps
  | any h =>
      intro c s he
      injection he with h1 h2
      subst h1; subst h2
      simp only [RE.deriv, if_neg h]
      exact .eps
  | @catI r₁ r₂ s₁ s₂ h₁ h₂ ih₁ ih₂ =>
      intro c s he
      cases s₁ with
      | nil =>
          simp only [List.nil_append] at he
          have hn := RLang.nullable_of_nil h₁ rfl
          simp only [RE.deriv, if_pos hn]
          exact .altR (ih₂ he)
      | cons a s₁' =>
          simp only [List.cons_append, List.cons.injEq] at he
          rcases he with ⟨ha, hs⟩
          subst ha
          have hcat : RLang (RE.cat (r₁.deriv a) r₂) (s₁' ++ s₂) :=
            RLang.catI (ih₁ rfl) h₂
          simp only [RE.deriv]
          by_cases hn : r₁.nullable
          · rw [if_pos hn]
            exact hs ▸ .altL hcat
          · rw [if_neg hn]
            exact hs ▸ hcat
  | altL h ih =>
      intro c s he
      exact .altL (ih he)
  | altR h ih =>
      intro c s he
      exact .altR (ih he)
  | starNil r => intro c s he; cases he
  | @starCons r s₁ s₂ h₁ h₂ ih₁ ih₂ =>
      intro c s he
      cases s₁ with
      | nil =>
          simp only [List.nil_append] at he
          exact ih₂ he
      | cons a s₁' =>
          simp only [List.cons_append, List.cons.injEq] at he
          rcases he with ⟨ha, hs⟩
          subst ha
          simp only [RE.deriv]
          exact hs ▸ RLang.catI (ih₁ rfl) h₂

/-- Correctness of the derivative matcher against the language semantics. -/
theorem reFull_iff : ∀ (s : List Char) (r : RE), reFull r s = true ↔ RLang r s := by
  intro s
  induction s with
  | nil =>
      intro r
      exact ⟨RLang.nil_of_nullable, fun h => RLang.nullable_of_nil h rfl⟩
  | cons c s ih =>
      intro r
      constructor
      · intro h
        exact RLang.deriv_sound ((ih (r.deriv c)).mp h)
      · intro h
        exact (ih (r.deriv c)).mpr (RLang.deriv_complete h rfl)

/-!
## Pattern compilation

`LandsatImporter.filter` builds pattern strings by interpolation
(`r'.*{}.*.tif$'.format(pattern)` / `r'.*_B.*.tif$'`) and hands them to
`re.compile`; `re.match` then anchors at the start of the candidate name,
and the trailing `$` anchors at its end.  `parseAtoms` reads the pattern
string into regex atoms: `.` is any-char, a postfix `*` wraps the
preceding atom in a star, and every other character is a literal (the
fragment of `re` syntax these patterns use).
-/

/-- Parse a pattern string (without the trailing `$`) into regex atoms. -/
def parseAtoms : List Char → List RE → List RE
  | [], acc => acc.reverse
  | '.' :: rest, acc => parseAtoms rest (RE.any :: acc)
  | '*' :: rest, a :: acc => parseAtoms rest (RE.star a :: acc)
  | '*' :: rest, [] => parseAtoms rest [RE.char '*']
  | c :: rest, acc => parseAtoms rest (RE.char c :: acc)

/-- Sequence a list of atoms into one regex (left-nested concatenation). -/
def reOfAtoms (atoms : List RE) : RE :=
  atoms.foldl RE.cat RE.eps

/-- A compiled pattern: the body regex plus whether a trailing `$`
anchored the match at the end of the subject. -/
structure CompiledRE where
  re : RE
  anchored : Bool
deriving DecidableEq, Repr

/-- Compile a pattern string the way `re.compile` reads the patterns this
module builds: strip a trailing `$` (end anchor) and parse the rest. -/
def compilePat (p : String) : CompiledRE :=
  let cs := p.data
  if cs.getLast? = some '$' then
    { re := reOfAtoms (parseAtoms cs.dropLast []), anchored := true }
  else
    { re := reOfAtoms (parseAtoms cs []), anchored := false }

/-- `re.match` semantics: the pattern must match at the start of the
subject; with a trailing `$` it must consume the whole subject, otherwise
any prefix suffices. -/
def reMatchL (c : CompiledRE) (s : List Char) : Bool :=
  if c.anchored then reFull c.re s
  else (List.range (s.length + 1)).any fun i => reFull c.re (s.take i)

/-- `re.match(re.compile(p), s)` is truthy. -/
def reMatchStr (p s : String) : Bool :=
  reMatchL (compilePat p) s.data

/-- One `glob`/`fnmatch` pattern character: `*` matches any character
run (newlines included); the patterns built by `_unzip`/`_filter` use no
other wildcard, so remaining characters are literals. -/
def globAtom : Char → RE
  | '*' => RE.star (RE.alt RE.any (RE.char '\n'))
  | c => RE.char c

/-- Translate a glob pattern into the regex core. -/
def globToRE (cs : List Char) : RE :=
  reOfAtoms (cs.map globAtom)

/-- `fnmatch`-style whole-name glob matching. -/
def globMatch (pat s : String) : Bool :=
  reFull (globToRE pat.data) s.data

/-- Does `sub` occur as a contiguous substring of `s`? (Used to state
that a regex metacharacter matched something other than its literal
spelling.) -/
def containsSub (sub s : List Char) : Bool :=
  (List.range (s.length + 1)).any fun i => sub.isPrefixOf (s.drop i)

/-!
## Python string/path helpers used by the sources
-/

/-- Python whitespace for `str.strip`/`str.rstrip`. -/
def isPySpace (c : Char) : Bool :=
  c = ' ' || c = '\t' || c = '\n' || c = '\r' || c = '\x0b' || c = '\x0c'

/-- Python `str.rstrip()`: drop trailing whitespace. -/
def rstripStr (s : String) : String :=
  ⟨(s.data.reverse.dropWhile isPySpace).reverse⟩

/-- Python `str.strip()`: drop leading and trailing whitespace. -/
def stripStr (s : String) : String :=
  ⟨((s.data.dropWhile isPySpace).reverse.dropWhile isPySpace).reverse⟩

/-- `os.path.basename`: everything after the last `/`. -/
def basename (s : String) : String :=
  ⟨(s.data.reverse.takeWhile (· ≠ '/')).reverse⟩

/-- The root part of `os.path.splitext`: drop the extension that starts
at the last `.` of the name, provided some earlier character of the name
is not a `.` (so names made only of leading dots keep them). -/
def splitextRoot (s : String) : String :=
  let rev := s.data.reverse
  match rev.dropWhile (· ≠ '.') with
  | [] => s
  | _ :: before =>
      if before.any (· ≠ '.') then ⟨before.reverse⟩ else s

/-- `os.path.join` for the walk results (POSIX separator). -/
def pathJoin (dir name : String) : String :=
  dir ++ "/" ++ name

/-- `LandsatImporter._map_name`: `os.path.splitext(os.path.basename(f))[0]`,
the destination raster name for a candidate file. -/
def mapName (filename : String) : String :=
  splitextRoot (basename filename)

/-!
## `i.landsat.import`: archive expansion and cleanup state

`LandsatImporter` keeps the input directory's archives, the unzip
directory's contents and an internal `_dir_list` of directories to clean
up.  `_unzip` (source lines 134-144) globs `*<pattern_file>*.tar.gz` in
the input directory and calls `shutil.unpack_archive` on each hit; an
unpack error propagates and aborts.  `__del__` (lines 111-123) removes
the `_dir_list` directories with `shutil.rmtree` unless flag `-l` is set,
swallowing `OSError`.
-/

/-- An archive present in the input directory: its file name, the
top-level directories its extraction creates, and whether
`shutil.unpack_archive` succeeds on it. -/
structure ArchiveFile where
  name : String
  topDirs : List String
  unpackOk : Bool
deriving DecidableEq, Repr

/-- The importer's filesystem-facing state: archives in the input
directory, entries of the unzip directory, the log of archives actually
unpacked, and the importer's `_dir_list`. -/
structure PipeState where
  inputArchives : List ArchiveFile
  unzipEntries : List String
  unpacked : List String
  dirList : List String
deriving DecidableEq, Repr

/-- The glob pattern `_unzip` builds from `options['pattern_file']`. -/
def unzipGlobPattern (patternFile : String) : String :=
  if patternFile ≠ "" then "*" ++ patternFile ++ "*.tar.gz" else "*.tar.gz"

/-- One `shutil.unpack_archive` call: on success the archive's top-level
directories appear in the unzip directory and the call is logged; on
failure the raised error propagates.  In neither case is the archive
file removed, and `_dir_list` is never touched. -/
def unpackArchive (st : PipeState) (a : ArchiveFile) : PipeState × Option String :=
  if a.unpackOk then
    ({ st with unzipEntries := st.unzipEntries ++ a.topDirs,
               unpacked := st.unpacked ++ [a.name] }, none)
  else
    (st, some ("ReadError: " ++ a.name))

/-- Sequential unpacking of a list of archives, stopping at the first
failure (the exception propagates out of `_unzip`). -/
def unpackAll (st : PipeState) : List ArchiveFile → PipeState × Option String
  | [] => (st, none)
  | a :: rest =>
      match unpackArchive st a with
      | (st', none) => unpackAll st' rest
      | (st', some e) => (st', some e)

/-- `LandsatImporter._unzip(force=...)`: glob the matching archives and
unpack each into the unzip directory.  The `force` parameter is accepted
but never consulted by the body, exactly as in the source. -/
def unzip (st : PipeState) (patternFile : String) (force : Bool) : PipeState × Option String :=
  let inputFiles :=
    st.inputArchives.filter fun a => globMatch (unzipGlobPattern patternFile) a.name
  unpackAll st inputFiles

/-- The unzip call made by `filter` → `_filter`: `filter` passes
`force_unzip=not flags['n']` to `_filter`, which forwards it to
`_unzip(force=force_unzip)`. -/
def filterUnzipStep (st : PipeState) (patternFile : String) (flagN : Bool) : PipeState × Option String :=
  unzip st patternFile (!flagN)

/-- `LandsatImporter.__del__`: with flag `-l` the unzipped files back the
linked rasters, so nothing is removed; otherwise each recorded directory
is removed recursively, with `OSError` swallowed.  Returns the list of
directories actually removed (`removeOk` says whether `rmtree` succeeds
on a directory). -/
def cleanupDirs (flagL : Bool) (dirList : List String) (removeOk : String → Bool) : List String :=
  if flagL then [] else dirList.filter removeOk

/-!
## `i.landsat.import`: file selection

`filter` (lines 125-132) builds the band regex; `_filter` (lines
146-173) first unzips, then globs `*<pattern_file>*` in the unzip
directory as the scenes, fatally erroring when none exist, and walks
each scene keeping the file names matched by the compiled pattern.
-/

/-- One `os.walk` record of a scene: the directory path and the file
names listed in it (`rec[0]` and `rec[-1]`; the `dirnames` component is
unused by the source). -/
structure WalkRec where
  dirpath : String
  filenames : List String
deriving DecidableEq, Repr

/-- One entry of the unzip directory as seen by `glob`: its name and its
`os.walk` records (a plain file walks to nothing). -/
structure SceneDir where
  name : String
  walk : List WalkRec
deriving DecidableEq, Repr

/-- The band-pattern string built by `filter`:
`r'.*{}.*.tif$'.format(pattern)` when a pattern is given (Python
truthiness: the empty string counts as absent), else `r'.*_B.*.tif$'`. -/
def filterPatternString (pattern : String) : String :=
  if pattern ≠ "" then ".*" ++ pattern ++ ".*.tif$" else ".*_B.*.tif$"

/-- The scene glob pattern of `_filter`: `*<pattern_file>*` or `*`. -/
def sceneGlobPattern (patternFile : String) : String :=
  if patternFile ≠ "" then "*" ++ patternFile ++ "*" else "*"

/-- The fatal message of `_filter` when the scene glob is empty. -/
def nothingFoundFileMsg : String :=
  "Nothing found to import. Please check input and pattern_file options."

/-- The fatal message of `main` when no files survive the band filter. -/
def nothingFoundPatternMsg : String :=
  "Nothing found to import. Please check input and pattern options."

/-- The walk-and-match loop of `_filter`: for each walk record with a
non-empty file list, keep the names the compiled pattern matches and
join them to the record's directory path. -/
def filterWalk (p : CompiledRE) (walk : List WalkRec) : List String :=
  walk.flatMap fun rec =>
    if rec.filenames.isEmpty then []
    else (rec.filenames.filter fun f => reMatchL p f.data).map fun f =>
      pathJoin rec.dirpath f

/-- `LandsatImporter._filter` after the unzip step: glob the scenes,
fatal when none, then collect the matching files of every scene. -/
def filterFiles (filterP : String) (patternFile : String)
    (entries : List SceneDir) : Except String (List String) :=
  let scenes := entries.filter fun sc => globMatch (sceneGlobPattern patternFile) sc.name
  if scenes.length < 1 then .error nothingFoundFileMsg
  else .ok (scenes.flatMap fun sc => filterWalk (compilePat filterP) sc.walk)

/-!
## `i.landsat.import`: strategy selection and per-file ingestion

`import_products` (lines 175-202) chooses the GRASS module and its
argument set once, before the per-file loop: `r.external` when linking,
`r.import` when reprojecting, `r.in.gdal` otherwise.  Inside the loop a
projection dry-run check runs only when
`not override and (link or (not link and not reproject))`; a failed
check is fatal.  `_import_file` (lines 246-262) runs the module, then
inspects the new raster's datatype: `FCELL`/`DCELL` triggers a rounding
`r.mapcalc` into `tmp_<map>` followed by `g.rename` over the original
name; a `CalledModuleError` anywhere in the `try` block is swallowed.
-/

/-- A candidate file together with the collaborator verdicts the run
observes for it: the projection dry-run result (`_check_projection`),
whether the module invocation raises `CalledModuleError`, and whether
the created raster's datatype is floating point (`FCELL`/`DCELL`). -/
structure CandFile where
  name : String
  projMatches : Bool
  loadFails : Bool
  datatypeFloat : Bool
deriving DecidableEq, Repr

/-- The destination-environment verdicts, as functions of the file
path (the external collaborators consulted by the run). -/
structure Env where
  projMatches : String → Bool
  loadFails : String → Bool
  datatypeFloat : String → Bool

/-- Build the candidate-file record `import_products` observes for a
selected path. -/
def mkCand (env : Env) (p : String) : CandFile :=
  { name := p
    projMatches := env.projMatches p
    loadFails := env.loadFails p
    datatypeFloat := env.datatypeFloat p }

/-- Observable actions of the ingestion loop: a GRASS raster-loading
module invocation (with its success bit), the rounding `r.mapcalc` into
a temporary map, the `g.rename overwrite=True` of the temporary over the
final name, and `gs.raster_history`. -/
inductive Ev where
  | runModule (module : String) (input : String) (output : String) (ok : Bool)
  | mapcalcRound (tmp : String) (src : String)
  | renameOver (src : String) (dst : String)
  | history (map : String)
deriving DecidableEq, Repr

/-- The GRASS module chosen by `import_products` — one choice for the
whole run, made before any file is examined. -/
def selectModule (reproject link : Bool) : String :=
  if link then "r.external" else if reproject then "r.import" else "r.in.gdal"

/-- The non-module arguments `import_products` assembles alongside the
module choice (lines 176-194). -/
structure ModuleArgs where
  flagsStr : Option String
  memory : Option String
  resample : Option String
  resolution : Option String
  extent : Option String
deriving DecidableEq, Repr

/-- The argument set built by `import_products` for the chosen module. -/
def buildModuleArgs (reproject link override : Bool)
    (extentOpt memoryOpt : String) : ModuleArgs :=
  if link then
    { flagsStr := if override then some "o" else none
      memory := none, resample := none, resolution := none, extent := none }
  else if reproject then
    { flagsStr := none, memory := some memoryOpt
      resample := some "bilinear", resolution := some "value"
      extent := some extentOpt }
  else
    let f0 : Option String := if override then some "o" else none
    let f1 : Option String :=
      if extentOpt = "region" then
        match f0 with
        | some s => some (s ++ "r")
        | none => some "r"
      else f0
    { flagsStr := f1, memory := some memoryOpt
      resample := none, resolution := none, extent := none }

/-- The guard of the per-file projection check:
`not override and (link or (not link and not reproject))`. -/
def checkNeeded (override link reproject : Bool) : Bool :=
  !override && (link || (!link && !reproject))

/-- The fatal message raised on a failed projection check. -/
def projectionFatalMsg : String :=
  "Projection of dataset does not appear to match current location. Force reprojection using -r flag."

/-- `LandsatImporter._import_file`: run the module (input = file path,
output = map name); on success inspect the datatype and, when it is
floating point, round into `tmp_<map>` and rename the temporary over the
final name, then record history.  A raised `CalledModuleError` is
swallowed, ending the file's processing. -/
def importFileEvents (module : String) (f : CandFile) : List Ev :=
  let m := mapName f.name
  if f.loadFails then [Ev.runModule module f.name m false]
  else
    Ev.runModule module f.name m true ::
      (if f.datatypeFloat then
        [Ev.mapcalcRound ("tmp_" ++ m) m, Ev.renameOver ("tmp_" ++ m) m]
      else []) ++ [Ev.history m]

/-- The per-file loop of `import_products`: the projection check (when
its guard holds) is fatal on a mismatch, aborting the loop; otherwise
the file is handed to `_import_file` and the loop continues. -/
def importLoop (reproject link override : Bool) (module : String) :
    List CandFile → List Ev × Option String
  | [] => ([], none)
  | f :: rest =>
      if checkNeeded override link reproject && !f.projMatches then
        ([], some projectionFatalMsg)
      else
        let evs := importFileEvents module f
        let res := importLoop reproject link override module rest
        (evs ++ res.1, res.2)

/-- `LandsatImporter.import_products(reproject, link, override)`. -/
def importProducts (reproject link override : Bool) (files : List CandFile) :
    List Ev × Option String :=
  importLoop reproject link override (selectModule reproject link) files

/-- The tail of `main` once `importer.files` is known (lines 277-287):
fatal when nothing was selected, print-and-exit with flag `-p`, else run
`import_products` and return 0. -/
def mainAfterFilter (reproject link override flagP : Bool)
    (files : List CandFile) : List Ev × Except String Nat :=
  if files.length < 1 then ([], .error nothingFoundPatternMsg)
  else if flagP then ([], .ok 0)
  else
    let res := importProducts reproject link override files
    (res.1, match res.2 with
            | some e => .error e
            | none => .ok 0)

/-- `main` of `i.landsat.import` from the point where the unzip step has
already shaped the unzip directory: select the files, then import.  The
`entries` argument is the `glob`/`os.walk` observation of the unzip
directory after extraction; `env` supplies the collaborator verdicts. -/
def landsatImportMain (pattern patternFile : String)
    (reproject link override flagP : Bool)
    (entries : List SceneDir) (env : Env) : List Ev × Except String Nat :=
  match filterFiles (filterPatternString pattern) patternFile entries with
  | .error e => ([], .error e)
  | .ok files => mainAfterFilter reproject link override flagP (files.map (mkCand env))

/-!
## `i.landsat.download`: credential loading

`main` (download source, lines 106-129) reads the settings file,
collects its non-blank lines (`filter(None, (line.rstrip() for line in
fd))`), fatally errors on fewer than two, and takes the first two
(stripped) as user and password; an `IOError` while opening the file is
fatal.  Passing `-` reads both interactively instead.  Only afterwards
is the catalog API object constructed.
-/

/-- The non-blank lines of the settings file, each with trailing
whitespace removed. -/
def nonBlankLines (lines : List String) : List String :=
  (lines.map rstripStr).filter (· ≠ "")

/-- The fatal message for a settings file with fewer than two non-blank
lines. -/
def invalidSettingsMsg : String := "Invalid settings file"

/-- The fatal message when the settings file cannot be opened. -/
def cannotOpenSettingsMsg : String := "Unable to open settings file"

/-- Parse the settings-file lines into `(user, password)`. -/
def readCredentials (lines : List String) : Except String (String × String) :=
  let nb := nonBlankLines lines
  match nb with
  | u :: p :: _ => .ok (stripStr u, stripStr p)
  | _ => .error invalidSettingsMsg

/-- Where the credentials come from: interactive input (settings `-`) or
a settings file whose contents are `none` when opening raises `IOError`. -/
inductive SettingsSrc where
  | stdin (user password : String)
  | file (content : Option (List String))
deriving DecidableEq, Repr

/-- The credential-acquisition prefix of the download `main`. -/
def getCredentials : SettingsSrc → Except String (String × String)
  | .stdin u p => .ok (u, p)
  | .file none => .error cannotOpenSettingsMsg
  | .file (some lines) => readCredentials lines

/-- Observable catalog actions of the download `main`. -/
inductive DlEv where
  | apiLogin (user password : String)
  | search
  | eeDownload (sceneId : String)
  | logout
deriving DecidableEq, Repr

/-- `main` of `i.landsat.download`: acquire credentials (fatal errors
abort before any catalog work), construct the API session, then either
list scenes (flag `-l`) or download every comma-separated scene id. -/
def downloadMain (settings : SettingsSrc) (flagL : Bool) (ids : String) :
    List DlEv × Except String Nat :=
  match getCredentials settings with
  | .error e => ([], .error e)
  | .ok (u, p) =>
      (DlEv.apiLogin u p ::
        (if flagL then [DlEv.search, DlEv.logout]
         else ((ids.splitOn ",").map DlEv.eeDownload) ++ [DlEv.logout]),
       .ok 0)

/-!
## Helper lemmas
-/

theorem tmpName_ne (m : String) : "tmp_" ++ m ≠ m := by
  intro h
  have hlen : ("tmp_" ++ m).length = m.length := by rw [h]
  simp only [String.length_append] at hlen
  have h4 : ("tmp_" : String).length = 4 := rfl
  omega

/-- `unpack_archive` never removes anything from the input directory. -/
theorem unpackAll_inputArchives (l : List ArchiveFile) : ∀ (st : PipeState),
    ((unpackAll st l).1).inputArchives = st.inputArchives := by
  induction l with
  | nil => intro st; rfl
  | cons a rest ih =>
      intro st
      unfold unpackAll unpackArchive
      by_cases h : a.unpackOk
      · simp only [if_pos h]
        exact ih _
      · simp only [if_neg h]

/-- `_unzip` never touches the importer's `_dir_list`. -/
theorem unpackAll_dirList (l : List ArchiveFile) : ∀ (st : PipeState),
    ((unpackAll st l).1).dirList = st.dirList := by
  induction l with
  | nil => intro st; rfl
  | cons a rest ih =>
      intro st
      unfold unpackAll unpackArchive
      by_cases h : a.unpackOk
      · simp only [if_pos h]
        exact ih _
      · simp only [if_neg h]

/-- Membership in a walk's filtered file list: exactly the joined paths
of names the compiled pattern matches. -/
theorem mem_filterWalk {p : CompiledRE} {walk : List WalkRec} {f : String} :
    f ∈ filterWalk p walk ↔ ∃ rec ∈ walk, ∃ name ∈ rec.filenames,
      reMatchL p name.data = true ∧ f = pathJoin rec.dirpath name := by
  unfold filterWalk
  rw [List.mem_flatMap]
  constructor
  · rintro ⟨rec, hrec, hf⟩
    refine ⟨rec, hrec, ?_⟩
    by_cases he : rec.filenames.isEmpty
    · rw [if_pos he] at hf
      cases hf
    · rw [if_neg he] at hf
      rw [List.mem_map] at hf
      obtain ⟨name, hmem, heq⟩ := hf
      rw [List.mem_filter] at hmem
      exact ⟨name, hmem.1, hmem.2, heq.symm⟩
  · rintro ⟨rec, hrec, name, hname, hmatch, heq⟩
    refine ⟨rec, hrec, ?_⟩
    have he : ¬rec.filenames.isEmpty := by
      intro h
      rw [List.isEmpty_iff] at h
      rw [h] at hname
      cases hname
    rw [if_neg he, List.mem_map]
    exact ⟨name, List.mem_filter.mpr ⟨hname, hmatch⟩, heq.symm⟩

/-- Membership in `_filter`'s result: a path is selected exactly when it
joins a matched file name onto a walk record of a globbed scene. -/
theorem mem_filterFiles {filterP patternFile : String} {entries : List SceneDir}
    {files : List String} {p : String}
    (hok : filterFiles filterP patternFile entries = .ok files) :
    p ∈ files ↔ ∃ sc ∈ entries.filter
        (fun sc => globMatch (sceneGlobPattern patternFile) sc.name),
      ∃ rec ∈ sc.walk, ∃ name ∈ rec.filenames,
        reMatchL (compilePat filterP) name.data = true ∧ p = pathJoin rec.dirpath name := by
  unfold filterFiles at hok
  by_cases hs : (entries.filter
      (fun sc => globMatch (sceneGlobPattern patternFile) sc.name)).length < 1
  · rw [if_pos hs] at hok
    cases hok
  · rw [if_neg hs] at hok
    injection hok with hok
    subst hok
    rw [List.mem_flatMap]
    constructor
    · rintro ⟨sc, hsc, hp⟩
      exact ⟨sc, hsc, mem_filterWalk.mp hp⟩
    · rintro ⟨sc, hsc, hrest⟩
      exact ⟨sc, hsc, mem_filterWalk.mpr hrest⟩

/-- The module invocation recorded for a file names that file as input
and its map name as output. -/
theorem runModule_mem_importFileEvents (module : String) (f : CandFile) :
    Ev.runModule module f.name (mapName f.name) (!f.loadFails) ∈
      importFileEvents module f := by
  unfold importFileEvents
  by_cases hl : f.loadFails
  · simp [hl]
  · by_cases hd : f.datatypeFloat <;> simp [hl, hd]

/-- Any module invocation inside `_import_file`'s event trace has the
processed file as its input. -/
theorem importFileEvents_runModule_input {module mod inp out : String}
    {ok : Bool} {f : CandFile}
    (h : Ev.runModule mod inp out ok ∈ importFileEvents module f) : inp = f.name := by
  unfold importFileEvents at h
  by_cases hl : f.loadFails
  · simp [hl] at h
    exact h.2.1
  · by_cases hd : f.datatypeFloat <;> simp [hl, hd] at h <;> exact h.2.1

/-- When every file the check guard would inspect passes it, the import
loop never raises the projection fatal and records a module invocation
for every file. -/
theorem importLoop_no_fatal (reproject link override : Bool) (module : String)
    (files : List CandFile)
    (hchk : checkNeeded override link reproject = true →
      ∀ g ∈ files, g.projMatches = true) :
    (importLoop reproject link override module files).2 = none ∧
    ∀ g ∈ files, Ev.runModule module g.name (mapName g.name) (!g.loadFails) ∈
      (importLoop reproject link override module files).1 := by
  induction files with
  | nil => exact ⟨rfl, by intro g hg; cases hg⟩
  | cons f rest ih =>
      have hguard : (checkNeeded override link reproject && !f.projMatches) = false := by
        by_cases hc : checkNeeded override link reproject = true
        · have := hchk hc f (List.mem_cons_self f rest)
          simp [this]
        · have hfa : checkNeeded override link reproject = false := by
            revert hc
            cases checkNeeded override link reproject <;> simp
          simp [hfa]
      have ih' := ih (fun hc g hg => hchk hc g (List.mem_cons_of_mem f hg))
      constructor
      · show (importLoop reproject link override module (f :: rest)).2 = none
        unfold importLoop
        rw [if_neg (by simp [hguard])]
        exact ih'.1
      · intro g hg
        show _ ∈ (importLoop reproject link override module (f :: rest)).1
        unfold importLoop
        rw [if_neg (by simp [hguard])]
        rcases List.mem_cons.mp hg with hgf | hgr
        · subst hgf
          exact List.mem_append.mpr (Or.inl (runModule_mem_importFileEvents module g))
        · exact List.mem_append.mpr (Or.inr (ih'.2 g hgr))

/-- When the check guard is active and some file's verdict is mismatch,
the loop ends in the projection fatal and the mismatching file is never
handed to a loading module (provided the verdict is a function of the
file path, so files named like it also mismatch). -/
theorem importLoop_mismatch (reproject link override : Bool) (module : String)
    (hc : checkNeeded override link reproject = true) :
    ∀ (files : List CandFile) (f : CandFile), f ∈ files → f.projMatches = false →
    (∀ g ∈ files, g.name = f.name → g.projMatches = false) →
    (importLoop reproject link override module files).2 = some projectionFatalMsg ∧
    ∀ mod out ok, Ev.runModule mod f.name out ok ∉
      (importLoop reproject link override module files).1 := by
  intro files
  induction files with
  | nil => intro f hf; cases hf
  | cons g rest ih =>
      intro f hf hm huniq
      by_cases hg : g.projMatches = true
      · have hfg : f ≠ g := by
          intro he
          rw [he] at hm
          rw [hm] at hg
          cases hg
        have hfr : f ∈ rest := by
          rcases List.mem_cons.mp hf with h | h
          · exact absurd h hfg
          · exact h
        have hgne : g.name ≠ f.name := by
          intro he
          have := huniq g (List.mem_cons_self g rest) he
          rw [this] at hg
          cases hg
        have ih' := ih f hfr hm (fun x hx => huniq x (List.mem_cons_of_mem g hx))
        have hguard : (checkNeeded override link reproject && !g.projMatches) = false := by
          simp [hg]
        constructor
        · show (importLoop reproject link override module (g :: rest)).2 = _
          unfold importLoop
          rw [if_neg (by simp [hguard])]
          exact ih'.1
        · intro mod out ok hmem
          revert hmem
          show Ev.runModule mod f.name out ok ∈
              (importLoop reproject link override module (g :: rest)).1 → False
          unfold importLoop
          rw [if_neg (by simp [hguard])]
          intro hmem
          rcases List.mem_append.mp hmem with h | h
          · exact hgne (importFileEvents_runModule_input h).symm
          · exact ih'.2 mod out ok h
      · have hgf : g.projMatches = false := by
          revert hg
          cases g.projMatches <;> simp
        have hguard : (checkNeeded override link reproject && !g.projMatches) = true := by
          simp [hc, hgf]
        constructor
        · show (importLoop reproject link override module (g :: rest)).2 = _
          unfold importLoop
          rw [if_pos (by simp_all)]
        · intro mod out ok hmem
          revert hmem
          show Ev.runModule mod f.name out ok ∈
              (importLoop reproject link override module (g :: rest)).1 → False
          unfold importLoop
          rw [if_pos (by simp_all)]
          intro hmem
          cases hmem

/-- A full match against `body ++ 'c'` forces the subject to end in `c`. -/
theorem reFull_cat_char_last {r : RE} {c : Char} {s : List Char}
    (h : reFull (RE.cat r (RE.char c)) s = true) : ∃ t, s = t ++ [c] := by
  have hl := (reFull_iff s (RE.cat r (RE.char c))).mp h
  cases hl with
  | catI h₁ h₂ =>
      cases h₂ with
      | char => exact ⟨_, rfl⟩

/-- The compiled default band pattern: end-anchored, and its body is a
concatenation ending in the literal `f`. -/
theorem compiledDefault_shape :
    compilePat ".*_B.*.tif$"
      = { re := RE.cat (RE.cat (RE.cat (RE.cat (RE.cat (RE.cat (RE.cat
            (RE.cat RE.eps (RE.star RE.any)) (RE.char '_')) (RE.char 'B'))
            (RE.star RE.any)) RE.any) (RE.char 't')) (RE.char 'i')) (RE.char 'f'),
          anchored := true } := by decide

/-- No subject ending in the four characters `.TIF` matches the default
band pattern: the pattern's last literal is a lowercase `f`. -/
theorem tif_upper_never_matches (t : List Char) :
    reMatchL (compilePat ".*_B.*.tif$") (t ++ ".TIF".data) = false := by
  rw [← Bool.not_eq_true]
  intro htrue
  rw [compiledDefault_shape] at htrue
  simp only [reMatchL, if_pos rfl] at htrue
  obtain ⟨t', ht'⟩ := reFull_cat_char_last htrue
  have hF : (t ++ ".TIF".data).getLast? = some 'F' := by
    have : t ++ ".TIF".data = (t ++ ['.', 'T', 'I']) ++ ['F'] := by
      simp [List.append_assoc]
    rw [this, List.getLast?_concat]
  have hf : (t ++ ".TIF".data).getLast? = some 'f' := by
    rw [ht', List.getLast?_concat]
  rw [hF] at hf
  injection hf with hf
  cases hf

/-!
## Claims
-/

/-- A concrete candidate band file whose projection dry-run succeeds
(verdict = match) and whose load succeeds with integer output. -/
def matchingBandFile : CandFile :=
  { name := "/data/LC08_B4.tif", projMatches := true
    loadFails := false, datatypeFloat := false }

/-- C1 as stated is false on the code: with `reproject=true, link=false,
override=false`, `import_products` fixes the module to `r.import` (the
REPROJECT strategy) before the loop, so even a file whose projection
verdict is match is imported by `r.import`, not by the DIRECT module
`r.in.gdal`. -/
theorem C1_counterexample :
    (importProducts true false false [matchingBandFile]).1
      = [Ev.runModule "r.import" "/data/LC08_B4.tif" "LC08_B4" true,
         Ev.history "LC08_B4"]
    ∧ selectModule true false = "r.import"
    ∧ "r.import" ≠ "r.in.gdal" := by
  refine ⟨by decide, by decide, by decide⟩

/-- C1 (amended): with `allowReproject=true, linkOnly=false,
override=false` the projection verdict is never consulted and every
candidate file — those with verdict=match included — is imported with
the REPROJECT module `r.import`; `r.import` is the chosen module exactly
when `reproject` is set and `link` is not, independent of any verdict. -/
theorem C1_reproject_for_all (files : List CandFile) (f : CandFile) (hf : f ∈ files) :
    (∀ reproject link, selectModule reproject link = "r.import" ↔
        reproject = true ∧ link = false) ∧
    (importProducts true false false files).2 = none ∧
    Ev.runModule "r.import" f.name (mapName f.name) (!f.loadFails) ∈
      (importProducts true false false files).1 := by
  have hguard : checkNeeded false false true = false := by decide
  have h := importLoop_no_fatal true false false "r.import" files
    (fun hc => absurd hc (by simp [hguard]))
  refine ⟨by decide, ?_, ?_⟩
  · show (importLoop true false false (selectModule true false) files).2 = none
    have hm : selectModule true false = "r.import" := by decide
    rw [hm]
    exact h.1
  · show _ ∈ (importLoop true false false (selectModule true false) files).1
    have hm : selectModule true false = "r.import" := by decide
    rw [hm]
    exact h.2 f hf

/-- Witness for C1 (amended) at a one-element batch containing a
matching file. -/
theorem C1_reproject_for_all_witness :
    (∀ reproject link, selectModule reproject link = "r.import" ↔
        reproject = true ∧ link = false) ∧
    (importProducts true false false [matchingBandFile]).2 = none ∧
    Ev.runModule "r.import" matchingBandFile.name (mapName matchingBandFile.name)
        (!matchingBandFile.loadFails) ∈
      (importProducts true false false [matchingBandFile]).1 :=
  C1_reproject_for_all [matchingBandFile] matchingBandFile
    (List.mem_cons_self matchingBandFile [])

/-- A concrete candidate band file whose load produces a floating-point
raster (as reprojection resampling would), imported here with the DIRECT
module. -/
def floatBandFile : CandFile :=
  { name := "/data/LC08_B4.tif", projMatches := true
    loadFails := false, datatypeFloat := true }

/-- C2 as stated is false on the code: the floating-point datatype check
of `_import_file` runs after every import, not only after REPROJECT — a
DIRECT (`r.in.gdal`) import whose result is floating point also gets the
rounding treatment. -/
theorem C2_counterexample :
    (importProducts false false false [floatBandFile]).1
      = [Ev.runModule "r.in.gdal" "/data/LC08_B4.tif" "LC08_B4" true,
         Ev.mapcalcRound "tmp_LC08_B4" "LC08_B4",
         Ev.renameOver "tmp_LC08_B4" "LC08_B4",
         Ev.history "LC08_B4"]
    ∧ selectModule false false = "r.in.gdal"
    ∧ "r.in.gdal" ≠ "r.import" := by
  refine ⟨by decide, by decide, by decide⟩

/-- C2 (amended): the floating-point post-condition check runs after
every successful import regardless of the chosen module; when it fires,
the rounded copy is created under the temporary name `tmp_<map>` —
distinct from the final name — and the final name is only ever the
destination of the single rename step whose source is that temporary, so
the final name is never written except by the rename-over-temp. -/
theorem C2_rounding (module : String) (f : CandFile)
    (h1 : f.loadFails = false) (h2 : f.datatypeFloat = true) :
    importFileEvents module f
      = [Ev.runModule module f.name (mapName f.name) true,
         Ev.mapcalcRound ("tmp_" ++ mapName f.name) (mapName f.name),
         Ev.renameOver ("tmp_" ++ mapName f.name) (mapName f.name),
         Ev.history (mapName f.name)]
    ∧ "tmp_" ++ mapName f.name ≠ mapName f.name
    ∧ (∀ t s, Ev.mapcalcRound t s ∈ importFileEvents module f →
        t = "tmp_" ++ mapName f.name)
    ∧ (∀ s d, Ev.renameOver s d ∈ importFileEvents module f →
        s = "tmp_" ++ mapName f.name ∧ d = mapName f.name) := by
  have hev : importFileEvents module f
      = [Ev.runModule module f.name (mapName f.name) true,
         Ev.mapcalcRound ("tmp_" ++ mapName f.name) (mapName f.name),
         Ev.renameOver ("tmp_" ++ mapName f.name) (mapName f.name),
         Ev.history (mapName f.name)] := by
    unfold importFileEvents
    rw [if_neg (by simp [h1]), if_pos h2]
    simp
  refine ⟨hev, tmpName_ne (mapName f.name), ?_, ?_⟩
  · intro t s hmem
    rw [hev] at hmem
    simp at hmem
    exact hmem.1
  · intro s d hmem
    rw [hev] at hmem
    simp at hmem
    exact hmem

/-- Witness for C2 (amended): the rounding of a concrete file brought
in as a floating-point DIRECT load. -/
theorem C2_rounding_witness :
    importFileEvents "r.in.gdal" floatBandFile
      = [Ev.runModule "r.in.gdal" floatBandFile.name (mapName floatBandFile.name) true,
         Ev.mapcalcRound ("tmp_" ++ mapName floatBandFile.name) (mapName floatBandFile.name),
         Ev.renameOver ("tmp_" ++ mapName floatBandFile.name) (mapName floatBandFile.name),
         Ev.history (mapName floatBandFile.name)]
    ∧ "tmp_" ++ mapName floatBandFile.name ≠ mapName floatBandFile.name
    ∧ (∀ t s, Ev.mapcalcRound t s ∈ importFileEvents "r.in.gdal" floatBandFile →
        t = "tmp_" ++ mapName floatBandFile.name)
    ∧ (∀ s d, Ev.renameOver s d ∈ importFileEvents "r.in.gdal" floatBandFile →
        s = "tmp_" ++ mapName floatBandFile.name ∧ d = mapName floatBandFile.name) :=
  C2_rounding "r.in.gdal" floatBandFile rfl rfl

/-- A concrete scene archive whose extraction succeeds, creating one
top-level directory. -/
def egArchive : ArchiveFile :=
  { name := "LC08_scene.tar.gz", topDirs := ["LC08_scene"], unpackOk := true }

/-- The importer's state at the start of a run over a directory holding
that single archive. -/
def egPipeState : PipeState :=
  { inputArchives := [egArchive], unzipEntries := [], unpacked := [], dirList := [] }

/-- C3: the skip-re-extraction behaviour the `-n` flag documents
("Do not unzip if files are already extracted") does not exist in the
code.  `filter` passes `force_unzip=not flags['n']` down to
`_unzip(force=...)`, but `_unzip`'s body never consults `force`: with
the flag set the archive is unpacked all the same, and the unzip step
computes the identical result for both flag values. -/
theorem C3_skip_flag_ignored :
    ((filterUnzipStep egPipeState "" true).1).unpacked = ["LC08_scene.tar.gz"]
    ∧ filterUnzipStep egPipeState "" true = filterUnzipStep egPipeState "" false := by
  refine ⟨by decide, by decide⟩

/-- C4: extraction does create the top-level directory, but `_unzip`
never appends it (or anything) to the importer's `_dir_list`, so the
completion cleanup of `__del__` — which removes exactly the recorded
directories — removes nothing even on a non-LINK run. -/
theorem C4_removal_list_never_populated :
    ((filterUnzipStep egPipeState "" false).1).unzipEntries = ["LC08_scene"]
    ∧ ((filterUnzipStep egPipeState "" false).1).dirList = []
    ∧ cleanupDirs false ((filterUnzipStep egPipeState "" false).1).dirList
        (fun _ => true) = [] := by
  refine ⟨by decide, by decide, rfl⟩

/-- C8 as stated is false on the code: this expansion succeeds (no error
is raised and the extracted directory appears), yet the archive file is
still present in the input directory afterwards — `_unzip` contains no
deletion at all. -/
theorem C8_counterexample :
    unzip egPipeState "" true
      = ({ inputArchives := [egArchive], unzipEntries := ["LC08_scene"],
           unpacked := ["LC08_scene.tar.gz"], dirList := [] }, none)
    ∧ egArchive.name = "LC08_scene.tar.gz" := by
  refine ⟨by decide, by decide⟩

/-- C8 (amended): expansion never deletes any archive — whether each
unpack succeeds or fails, the input directory's archive list is
unchanged by `_unzip`. -/
theorem C8_archives_never_deleted (st : PipeState) (patternFile : String) (force : Bool) :
    ((unzip st patternFile force).1).inputArchives = st.inputArchives := by
  unfold unzip
  exact unpackAll_inputArchives _ st

/-- `main` with no fatal from the import stage finishes with exit 0 and
the loop's events. -/
theorem mainAfterFilter_no_fatal (reproject link override : Bool) (files : List CandFile)
    (hne : ¬ files.length < 1)
    (hnone : (importProducts reproject link override files).2 = none) :
    mainAfterFilter reproject link override false files
      = ((importProducts reproject link override files).1, Except.ok 0) := by
  unfold mainAfterFilter
  rw [if_neg hne, if_neg (by simp)]
  show ((importProducts reproject link override files).1,
      match (importProducts reproject link override files).2 with
      | some e => Except.error e
      | none => Except.ok 0) = _
  rw [hnone]

/-- C5: file selection returns only paths whose base name matches the
regular expansion of the filter pattern, and when zero files remain the
run aborts with the fatal empty-result error before any import: no
event is emitted and the exit is the fatal message. -/
theorem C5_selection (pattern patternFile : String)
    (entries : List SceneDir) (files : List String)
    (hok : filterFiles (filterPatternString pattern) patternFile entries = .ok files) :
    (∀ p ∈ files, ∃ dir name, p = pathJoin dir name ∧
        reMatchStr (filterPatternString pattern) name = true) ∧
    (files = [] → ∀ reproject link override flagP env,
        landsatImportMain pattern patternFile reproject link override flagP entries env
          = ([], .error nothingFoundPatternMsg)) := by
  constructor
  · intro p hp
    obtain ⟨sc, hsc, rec, hrec, name, hname, hmatch, heq⟩ :=
      (mem_filterFiles hok).mp hp
    exact ⟨rec.dirpath, name, heq, hmatch⟩
  · intro hnil reproject link override flagP env
    subst hnil
    simp [landsatImportMain, hok, mainAfterFilter]

/-- A concrete unzip-directory observation: one scene with one band file
and one metadata file. -/
def egSceneEntries : List SceneDir :=
  [{ name := "LC08_scene",
     walk := [{ dirpath := "LC08_scene",
                filenames := ["LC08_B4.tif", "LC08_MTL.txt"] }] }]

/-- Witness for C5: on the concrete scene the selector returns exactly
the joined band file, and its base name matches the default pattern. -/
theorem C5_selection_witness :
    ∃ dir name, "LC08_scene/LC08_B4.tif" = pathJoin dir name ∧
      reMatchStr (filterPatternString "") name = true :=
  (C5_selection "" "" egSceneEntries ["LC08_scene/LC08_B4.tif"] (by rfl)).1
    "LC08_scene/LC08_B4.tif" (List.mem_cons_self _ _)

/-- C6: with `allowReproject=false, override=false` (either value of
`linkOnly`), a candidate whose projection verdict is mismatch makes the
run raise the fatal projection message, and no loading module is ever
invoked on that file (assuming the dry-run verdict is a function of the
file path). -/
theorem C6_mismatch_fatal (link : Bool) (files : List CandFile) (f : CandFile)
    (hf : f ∈ files) (hm : f.projMatches = false)
    (hfn : ∀ g ∈ files, g.name = f.name → g.projMatches = false) :
    (importProducts false link false files).2 = some projectionFatalMsg ∧
    ∀ mod out ok, Ev.runModule mod f.name out ok ∉
      (importProducts false link false files).1 := by
  have hc : checkNeeded false link false = true := by cases link <;> decide
  exact importLoop_mismatch false link false (selectModule false link) hc files f hf hm hfn

/-- A concrete candidate whose projection dry-run fails. -/
def mismatchFile : CandFile :=
  { name := "/data/LC08_B4.tif", projMatches := false
    loadFails := false, datatypeFloat := false }

/-- Witness for C6 at a one-element batch holding the mismatching file. -/
theorem C6_mismatch_fatal_witness :
    (importProducts false false false [mismatchFile]).2 = some projectionFatalMsg ∧
    ∀ mod out ok, Ev.runModule mod mismatchFile.name out ok ∉
      (importProducts false false false [mismatchFile]).1 :=
  C6_mismatch_fatal false [mismatchFile] mismatchFile (List.mem_cons_self _ _) rfl
    (by
      intro g hg _
      rcases List.mem_cons.mp hg with h | h
      · subst h; rfl
      · cases h)

/-- C7: one file's failed load is caught — the batch continues with the
files after it and the run still exits 0 (when nothing triggers the
projection fatal). -/
theorem C7_partial_failure (reproject link override : Bool)
    (pre post : List CandFile) (f : CandFile)
    (hfail : f.loadFails = true)
    (hchk : checkNeeded override link reproject = true →
      ∀ g ∈ pre ++ f :: post, g.projMatches = true) :
    (mainAfterFilter reproject link override false (pre ++ f :: post)).2 = Except.ok 0 ∧
    Ev.runModule (selectModule reproject link) f.name (mapName f.name) false ∈
      (mainAfterFilter reproject link override false (pre ++ f :: post)).1 ∧
    ∀ g ∈ post, Ev.runModule (selectModule reproject link) g.name (mapName g.name)
        (!g.loadFails) ∈
      (mainAfterFilter reproject link override false (pre ++ f :: post)).1 := by
  have h := importLoop_no_fatal reproject link override (selectModule reproject link)
    (pre ++ f :: post) hchk
  have hnone : (importProducts reproject link override (pre ++ f :: post)).2 = none := h.1
  have hne : ¬ (pre ++ f :: post).length < 1 := by
    simp [List.length_append]
  have hmain := mainAfterFilter_no_fatal reproject link override (pre ++ f :: post) hne hnone
  refine ⟨?_, ?_, ?_⟩
  · rw [hmain]
  · rw [hmain]
    have hmem := h.2 f (List.mem_append.mpr (Or.inr (List.mem_cons_self f post)))
    rw [hfail] at hmem
    exact hmem
  · intro g hg
    rw [hmain]
    exact h.2 g (List.mem_append.mpr (Or.inr (List.mem_cons_of_mem f hg)))

/-- A concrete candidate whose load raises `CalledModuleError`. -/
def failingBandFile : CandFile :=
  { name := "/data/LC08_B5.tif", projMatches := true
    loadFails := true, datatypeFloat := false }

/-- Witness for C7: the failing file is skipped, the following file is
still imported, and the run exits 0. -/
theorem C7_partial_failure_witness :
    (mainAfterFilter false false true false [failingBandFile, matchingBandFile]).2
      = Except.ok 0 ∧
    Ev.runModule (selectModule false false) failingBandFile.name
        (mapName failingBandFile.name) false ∈
      (mainAfterFilter false false true false [failingBandFile, matchingBandFile]).1 ∧
    ∀ g ∈ [matchingBandFile], Ev.runModule (selectModule false false) g.name
        (mapName g.name) (!g.loadFails) ∈
      (mainAfterFilter false false true false [failingBandFile, matchingBandFile]).1 :=
  C7_partial_failure false false true [] [matchingBandFile] failingBandFile rfl
    (fun hcc => absurd hcc (by decide))

/-- C9 as stated is false on the code: credential reading filters out
blank lines first, so for a settings file whose first line is blank the
username is not the file's line 1 (and the password is not its line 2) —
here line 1 is the empty line while the username becomes "alice". -/
theorem C9_counterexample :
    readCredentials ["", "alice", "bob"] = .ok ("alice", "bob")
    ∧ ["", "alice", "bob"].head? = some ""
    ∧ ("" : String) ≠ "alice" := by
  refine ⟨by rfl, by rfl, by decide⟩

/-- C9 (amended): credential loading takes the first two non-blank
lines of the settings file (blankness judged after stripping trailing
whitespace; each credential then fully stripped) as username and
password; a file with fewer than two non-blank lines is the fatal
invalid-settings error, an unreadable file is the fatal open error, and
either fatal aborts `main` before any catalog action is performed. -/
theorem C9_credentials (lines : List String) :
    (∀ u p rest, nonBlankLines lines = u :: p :: rest →
        readCredentials lines = .ok (stripStr u, stripStr p)) ∧
    ((nonBlankLines lines).length < 2 →
        readCredentials lines = .error invalidSettingsMsg) ∧
    (∀ flagL ids, downloadMain (.file none) flagL ids
        = ([], .error cannotOpenSettingsMsg)) ∧
    (∀ e flagL ids, getCredentials (.file (some lines)) = .error e →
        downloadMain (.file (some lines)) flagL ids = ([], .error e)) := by
  refine ⟨?_, ?_, ?_, ?_⟩
  · intro u p rest h
    simp [readCredentials, h]
  · intro hlen
    unfold readCredentials
    rcases hnb : nonBlankLines lines with _ | ⟨u, _ | ⟨p, r⟩⟩
    · rfl
    · rfl
    · exfalso
      rw [hnb] at hlen
      simp at hlen
      omega
  · intro flagL ids
    rfl
  · intro e flagL ids h
    unfold downloadMain
    rw [h]

/-- Witness for C9 (amended): a file with a blank first line and padded
second line yields the stripped first two non-blank lines, and a file
with a single non-blank line is fatal. -/
theorem C9_credentials_witness :
    readCredentials ["", " alice ", "bob"] = Except.ok (stripStr " alice", stripStr "bob") ∧
    readCredentials ["", "only"] = Except.error invalidSettingsMsg :=
  ⟨(C9_credentials ["", " alice ", "bob"]).1 " alice" "bob" [] (by rfl),
   (C9_credentials ["", "only"]).2.1 (by decide)⟩

/-- C10: the default band filter is the regex `.*_B.*.tif$` matched from
the start of the base name; selection keeps exactly the matching names;
no name ending in the uppercase suffix `.TIF` is ever selected (the
pattern's final literal is a lowercase `f`); and a user pattern is
interpolated unescaped — `B.`'s dot acts as a metacharacter, matching
`x_BQz.tif` although the literal substring `B.` occurs nowhere in it. -/
theorem C10_default_selection :
    filterPatternString "" = ".*_B.*.tif$" ∧
    (∀ (patternFile : String) (entries : List SceneDir) (files : List String) (p : String),
        filterFiles (filterPatternString "") patternFile entries = .ok files →
        (p ∈ files ↔ ∃ sc ∈ entries.filter
            (fun sc => globMatch (sceneGlobPattern patternFile) sc.name),
          ∃ rec ∈ sc.walk, ∃ name ∈ rec.filenames,
            reMatchStr ".*_B.*.tif$" name = true ∧ p = pathJoin rec.dirpath name)) ∧
    (∀ t : List Char, reMatchL (compilePat ".*_B.*.tif$") (t ++ ".TIF".data) = false) ∧
    filterPatternString "B." = ".*B..*.tif$" ∧
    reMatchStr (filterPatternString "B.") "x_BQz.tif" = true ∧
    containsSub "B.".data "x_BQz.tif".data = false := by
  refine ⟨by decide, ?_, tif_upper_never_matches, by decide, by decide, by decide⟩
  intro patternFile entries files p hok
  exact mem_filterFiles hok

/-- Witness for C10: an uppercase-suffix name is rejected, the
metacharacter pattern matches, and the concrete scene's selected path is
explained by a matching base name. -/
theorem C10_default_selection_witness :
    reMatchL (compilePat ".*_B.*.tif$") ("LC08_B4".data ++ ".TIF".data) = false ∧
    reMatchStr (filterPatternString "B.") "x_BQz.tif" = true ∧
    (∃ sc ∈ egSceneEntries.filter
        (fun sc => globMatch (sceneGlobPattern "") sc.name),
      ∃ rec ∈ sc.walk, ∃ name ∈ rec.filenames,
        reMatchStr ".*_B.*.tif$" name = true ∧
        "LC08_scene/LC08_B4.tif" = pathJoin rec.dirpath name) :=
  ⟨C10_default_selection.2.2.1 "LC08_B4".data,
   C10_default_selection.2.2.2.2.1,
   (C10_default_selection.2.1 "" egSceneEntries ["LC08_scene/LC08_B4.tif"]
      "LC08_scene/LC08_B4.tif" (by rfl)).mp (by decide)⟩

/-- Witness for C8 (amended) at the concrete one-archive state. -/
theorem C8_archives_never_deleted_witness :
    ((unzip egPipeState "" false).1).inputArchives = egPipeState.inputArchives :=
  C8_archives_never_deleted egPipeState "" false
